import Mathlib

/-!
# Verification of `pkg/helper/self_sign_configuration.go`

A shallow embedding of the self-sign configuration validator of
kubernetes-nmstate, together with the pieces of the Go standard library it
calls (`time.ParseDuration`, `time.Duration.String`, `strings.Join`) and of
`github.com/pkg/errors` (`Errorf`, `Wrapf`).

Conventions of the embedding:

* a Go `string` is a Lean `String`; the byte-indexed loops of the `time`
  package only ever test for ASCII bytes, so on well-formed UTF-8 they are the
  same loops over code points;
* `time.Duration` is an `int64` count of nanoseconds, embedded as an `Int`;
  `uint64` intermediates are `Nat`s reduced `% 2 ^ 64` where they can wrap;
* the `error` interface is `Option ErrorValue`, `none` being Go's `nil`;
* `[]error` is `List error`.
-/

set_option maxRecDepth 8000

namespace SelfSign

/-! ## Errors -/

/-- The dynamic values of Go's `error` interface that this file can produce. -/
inductive ErrorValue
  /-- Value of `errors.New` of the standard library (used by package `time`). -/
  | errorString (s : String)
  /-- Value of `errors.Errorf` of `github.com/pkg/errors` (its `fundamental`). -/
  | fundamental (msg : String)
  /-- Value of `errors.Wrapf` of `github.com/pkg/errors`: a `withStack` around
  a `withMessage` holding the cause and the formatted message. -/
  | withMessage (cause : ErrorValue) (msg : String)
  deriving DecidableEq, Repr

/-- Go's `error` interface: `none` is `nil`. -/
abbrev error := Option ErrorValue

/-- The `Error()` method. -/
def ErrorValue.Error : ErrorValue → String
  | .errorString s => s
  | .fundamental msg => msg
  | .withMessage cause msg => msg ++ ": " ++ cause.Error

/-- Function `errors.Errorf(format, args...)` of pkg/errors, applied to the
already formatted message. -/
def Errorf (msg : String) : error := some (.fundamental msg)

/-- Function `errors.Wrapf(err, format, args...)` of pkg/errors, applied to the
already formatted message; it returns `nil` when `err` is `nil`. -/
def Wrapf (err : error) (msg : String) : error :=
  match err with
  | none => none
  | some cause => some (.withMessage cause msg)

/-! ## Package `time`: durations -/

/-- Go's `time.Duration`: an `int64` nanosecond count. -/
abbrev Duration := Int

def Nanosecond : Duration := 1
def Microsecond : Duration := 1000 * Nanosecond
def Millisecond : Duration := 1000 * Microsecond
def Second : Duration := 1000 * Millisecond
def Minute : Duration := 60 * Second
def Hour : Duration := 60 * Minute

/-- Conversion `uint64(d)` of an `int64`. -/
def toUint64 (d : Int) : Nat := (d % 2 ^ 64).toNat

/-- Conversion `int64(u)` of a `uint64`. -/
def toInt64 (u : Nat) : Int :=
  if u % 2 ^ 64 < 2 ^ 63 then ((u % 2 ^ 64 : Nat) : Int) else ((u % 2 ^ 64 : Nat) : Int) - 2 ^ 64

/-! ### The `float64` arithmetic of `ParseDuration`

`ParseDuration` computes the contribution of a fractional part in `float64`.
Only non-negative values occur, so a value is a non-negative rational or
`+Inf`, and each operation is the exact one followed by rounding to the
nearest binary64 value, ties to even. -/

/-- A non-negative binary64 value. -/
inductive Float64
  | finite (q : ℚ)
  | inf
  deriving DecidableEq, Repr

/-- The integer `e` with `2 ^ e ≤ q < 2 ^ (e + 1)`, for `q > 0`. -/
def floorLog2 (q : ℚ) : Int :=
  let e0 : Int := (Nat.log2 q.num.toNat : Int) - (Nat.log2 q.den : Int)
  if (2 : ℚ) ^ e0 ≤ q then e0 else e0 - 1

/-- Rounding of a non-negative rational to binary64: 53 significant bits above
`2 ^ (-1022)`, multiples of `2 ^ (-1074)` below, ties to even, overflow to `+Inf`. -/
def roundFloat64 (q : ℚ) : Float64 :=
  if q ≤ 0 then .finite 0 else
  let e := max (floorLog2 q) (-1022)
  let ulp : ℚ := 2 ^ (e - 52)
  let m := q / ulp
  let lo : Int := m.floor
  let r := m - lo
  let n : Int := if r < 1 / 2 then lo else if 1 / 2 < r then lo + 1
    else if lo % 2 = 0 then lo else lo + 1
  let v := n * ulp
  if (2 : ℚ) ^ (1024 : Nat) ≤ v then .inf else .finite v

/-- Conversion `float64(x)` of a `uint64`. -/
def Float64.ofUint64 (x : Nat) : Float64 := roundFloat64 x

/-- Product `x * y`, for the operands `ParseDuration` uses (no `0 * Inf`). -/
def Float64.mul : Float64 → Float64 → Float64
  | .finite a, .finite b => roundFloat64 (a * b)
  | _, _ => .inf

/-- Quotient `x / y` of a finite `x` by a non-zero `y`. -/
def Float64.div : Float64 → Float64 → Float64
  | .finite a, .finite b => roundFloat64 (a / b)
  | .finite _, .inf => .finite 0
  | .inf, _ => .inf

/-- Conversion `uint64(x)`: truncation (the operand of `ParseDuration` is below `2 ^ 64`). -/
def Float64.toUint64 : Float64 → Nat
  | .finite q => q.floor.toNat % 2 ^ 64
  | .inf => 2 ^ 63

/-! ### `time.ParseDuration` -/

/-- The hexadecimal digit `lowerhex[n]`. -/
def lowerhex (n : Nat) : Char :=
  ("0123456789abcdef".data).getD n '0'

/-- Function `quote` of package `time`: the string between double quotes, with
`"` and `\` escaped and every byte of a non-ASCII or control character
written `\xhh`. -/
def quote (s : String) : String :=
  let body := s.data.foldl (fun (buf : List Char) (c : Char) =>
    if c.toNat ≥ 0x80 ∨ c < ' ' then
      buf ++ ((String.utf8EncodeChar c).map (fun b =>
        ['\\', 'x', lowerhex (b.toNat / 16), lowerhex (b.toNat % 16)])).flatten
    else if c = '"' ∨ c = '\\' then buf ++ ['\\', c]
    else buf ++ [c]) []
  String.mk (['"'] ++ body ++ ['"'])

/-- The error `errors.New("time: invalid duration " + quote(orig))`. -/
def invalidDuration (orig : String) : ErrorValue :=
  .errorString ("time: invalid duration " ++ quote orig)

/-- The table `unitMap` of package `time`. -/
def unitMap (u : String) : Option Nat :=
  if u = "ns" then some 1
  else if u = "us" then some 1000
  else if u = "µs" then some 1000
  else if u = "μs" then some 1000
  else if u = "ms" then some 1000000
  else if u = "s" then some 1000000000
  else if u = "m" then some 60000000000
  else if u = "h" then some 3600000000000
  else none

/-- Function `leadingInt`: consumes the leading `[0-9]*` of `s`, accumulating
into `x`; `none` is `errLeadingInt` (overflow). -/
def leadingInt : List Char → Nat → Option (Nat × List Char)
  | [], x => some (x, [])
  | c :: s, x =>
    if c < '0' ∨ c > '9' then some (x, c :: s)
    else if x > 2 ^ 63 / 10 then none
    else
      let x := x * 10 + c.toNat - '0'.toNat
      if x > 2 ^ 63 then none else leadingInt s x

/-- Function `leadingFraction`: consumes the leading `[0-9]*` of `s`; the
value is `x / scale`, digits past an overflow of `x` are dropped. -/
def leadingFraction : List Char → Nat → Float64 → Bool → Nat × Float64 × List Char
  | [], x, scale, _ => (x, scale, [])
  | c :: s, x, scale, overflow =>
    if c < '0' ∨ c > '9' then (x, scale, c :: s)
    else if overflow then leadingFraction s x scale overflow
    else if x > (2 ^ 63 - 1) / 10 then leadingFraction s x scale true
    else
      let y := x * 10 + c.toNat - '0'.toNat
      if y > 2 ^ 63 then leadingFraction s x scale true
      else leadingFraction s y (scale.mul (.finite 10)) false

/-- Test `c == '.' || '0' <= c && c <= '9'`. -/
def isDigitOrDot (c : Char) : Bool :=
  decide (c = '.' ∨ ('0' ≤ c ∧ c ≤ '9'))

/-- One iteration of the loop `for s != ""` of `ParseDuration` on the
non-empty rest `c :: s0`: it consumes one group `[0-9]*(\.[0-9]*)?[a-z]+`, adds
its value to the `uint64` sum `d`, and returns the new rest and sum. -/
def parseGroup (orig : String) (c : Char) (s0 : List Char) (d : Nat) :
    Except ErrorValue (List Char × Nat) :=
  -- The next character must be [0-9.]
  if ¬ isDigitOrDot c then .error (invalidDuration orig) else
  -- Consume [0-9]*
  let pl := (c :: s0).length
  match leadingInt (c :: s0) 0 with
  | none => .error (invalidDuration orig)
  | some (v, s) =>
    let pre := decide (pl ≠ s.length)
    -- Consume (\.[0-9]*)?
    let (f, scale, s, post) : Nat × Float64 × List Char × Bool :=
      match s with
      | '.' :: s1 =>
        let (f, scale, s2) := leadingFraction s1 0 (.finite 1) false
        (f, scale, s2, decide (s1.length ≠ s2.length))
      | _ => (0, .finite 1, s, false)
    if !pre && !post then .error (invalidDuration orig) else
    -- Consume unit.
    let u := s.takeWhile (fun c => !isDigitOrDot c)
    let s := s.dropWhile (fun c => !isDigitOrDot c)
    if u = [] then
      .error (.errorString ("time: missing unit in duration " ++ quote orig))
    else
      match unitMap (String.mk u) with
      | none =>
        .error (.errorString
          ("time: unknown unit " ++ quote (String.mk u) ++ " in duration " ++ quote orig))
      | some unit =>
        if v > 2 ^ 63 / unit then .error (invalidDuration orig) else
        let v := v * unit
        let v := if f > 0 then
            v + ((Float64.ofUint64 f).mul ((Float64.ofUint64 unit).div scale)).toUint64
          else v
        if f > 0 ∧ v > 2 ^ 63 then .error (invalidDuration orig) else
        let d := (d + v) % 2 ^ 64
        if d > 2 ^ 63 then .error (invalidDuration orig) else
        .ok (s, d)

/-- The loop `for s != ""` of `ParseDuration`, `d` being the `uint64` sum so
far. Every iteration consumes at least the unit, so `fuel = len(s)`
iterations are enough (`parseGroups_fuel`). -/
def parseGroups (orig : String) : Nat → List Char → Nat → Except ErrorValue Nat
  | _, [], d => .ok d
  | 0, _ :: _, _ => .error (invalidDuration orig)
  | fuel + 1, c :: s0, d =>
    match parseGroup orig c s0 d with
    | .error e => .error e
    | .ok (s, d) => parseGroups orig fuel s d

/-- Function `time.ParseDuration`: the parsed duration and a `nil` error, or
zero and the error. -/
def ParseDuration (s : String) : Duration × error :=
  let orig := s
  -- Consume [-+]?
  let (neg, s) : Bool × List Char :=
    match s.data with
    | c :: r => if c = '-' ∨ c = '+' then (decide (c = '-'), r) else (false, c :: r)
    | [] => (false, [])
  -- Special case: if all that is left is "0", this is zero.
  if s = ['0'] then (0, none)
  else if s = [] then (0, some (invalidDuration orig))
  else
    match parseGroups orig s.length s 0 with
    | .error e => (0, some e)
    | .ok d =>
      if neg then (toInt64 (toUint64 (-(toInt64 d))), none)
      else if d > 2 ^ 63 - 1 then (0, some (invalidDuration orig))
      else (toInt64 d, none)

/-! ### `time.Duration.String` -/

/-- The loop `for i := 0; i < prec; i++` of `fmtFrac`, `i` counting down. -/
def fmtFracLoop : Nat → List Char → Nat → Bool → List Char × Nat × Bool
  | 0, buf, v, print => (buf, v, print)
  | i + 1, buf, v, print =>
    let digit := v % 10
    let print := print || decide (digit ≠ 0)
    let buf := if print then Char.ofNat (digit + '0'.toNat) :: buf else buf
    fmtFracLoop i buf (v / 10) print

/-- Function `fmtFrac`: writes the fraction of `v / 10 ^ prec` in front of
`buf`, without trailing zeros (and without the point when the fraction is 0);
returns the new buffer and `v / 10 ^ prec`. -/
def fmtFrac (buf : List Char) (v : Nat) (prec : Nat) : List Char × Nat :=
  let (buf, v, print) := fmtFracLoop prec buf v false
  (if print then '.' :: buf else buf, v)

/-- The loop `for v > 0` of `fmtInt`; a `uint64` has at most 20 digits, the
fuel `fmtInt` gives it. -/
def fmtIntLoop : Nat → List Char → Nat → List Char
  | 0, buf, _ => buf
  | fuel + 1, buf, v =>
    if v > 0 then fmtIntLoop fuel (Char.ofNat (v % 10 + '0'.toNat) :: buf) (v / 10) else buf

/-- Function `fmtInt`: writes `v` in decimal in front of `buf`. -/
def fmtInt (buf : List Char) (v : Nat) : List Char :=
  if v = 0 then '0' :: buf else fmtIntLoop 20 buf v

/-- Method `Duration.String` (through `Duration.format`): the duration in the
form `72h3m0.5s`, the buffer being filled from its end. -/
def Duration.String (d : Duration) : String :=
  let u := toUint64 d
  let neg := decide (d < 0)
  let u := if neg then (2 ^ 64 - u) % 2 ^ 64 else u
  let buf : List Char :=
    if u < toUint64 Second then
      -- Special case: if duration is smaller than a second, use smaller units, like 1.2ms
      if u = 0 then ['0', 's']
      else
        let (prec, buf) : Nat × List Char :=
          if u < toUint64 Microsecond then (0, ['n', 's'])
          else if u < toUint64 Millisecond then (3, ['µ', 's'])
          else (6, ['m', 's'])
        let (buf, u) := fmtFrac buf u prec
        fmtInt buf u
    else
      let (buf, u) := fmtFrac ['s'] u 9
      -- u is now integer seconds
      let buf := fmtInt buf (u % 60)
      let u := u / 60
      -- u is now integer minutes
      if u > 0 then
        let buf := fmtInt ('m' :: buf) (u % 60)
        let u := u / 60
        -- u is now integer hours
        if u > 0 then fmtInt ('h' :: buf) u else buf
      else buf
  String.mk (if neg then '-' :: buf else buf)

/-! ## Package `strings` -/

/-- Function `strings.Join`: the elements with `sep` between consecutive ones,
the first element written first and `sep` then the element for each further one. -/
def stringsJoin (elems : List String) (sep : String) : String :=
  match elems with
  | [] => ""
  | [e] => e
  | e :: rest => rest.foldl (fun b s => b ++ sep ++ s) e

/-! ## The configuration -/

/-- Modelled from the spec: the type `NMStateSelfSignConfiguration` of package
`api/v1beta1` is declared outside `pkg/helper`; the spec describes it as a
record of four string-encoded duration fields. -/
structure NMStateSelfSignConfiguration where
  CARotateInterval : String
  CAOverlapInterval : String
  CertRotateInterval : String
  CertOverlapInterval : String
  deriving DecidableEq, Repr

def caRotateIntervalDefault : Duration := 168 * Hour
def caOverlapIntervalDefault : Duration := 24 * Hour
def certRotateIntervalDefault : Duration := 24 * Hour
def certOverlapIntervalDefault : Duration := 8 * Hour

/-! ## `pkg/helper/self_sign_configuration.go` -/

def parseCertificateKnob (name value : String) : Duration × error :=
  let (d, err) := ParseDuration value
  if err ≠ none then
    (d, Wrapf err ("failed to validate selfSignConfiguration: error parsing " ++ name))
  else (d, none)

def validateNotEmpty (name value : String) : error :=
  if value = "" then
    Errorf ("failed to validate selfSignConfiguration: " ++ name ++ " is missing")
  else none

def validateGreaterThanZero (name : String) (d : Duration) : error :=
  if d = 0 then
    Errorf ("failed to validate selfSignConfiguration: " ++ name ++ " duration has to be > 0")
  else none

def validateGreaterThan (lhsName : String) (lhsValue : Duration) (rhsNamed : String)
    (rhsValue : Duration) : error :=
  if rhsValue > lhsValue then
    Errorf ("failed to validate selfSignConfiguration: " ++ rhsNamed ++ "(" ++ rhsValue.String
      ++ ") has to be <= " ++ lhsName ++ "(" ++ lhsValue.String ++ ")")
  else none

def appendOnError (errs : List error) (err : error) : List error :=
  if err ≠ none then errs ++ [err] else errs

/-- ValidateSelfSignConfiguration validates the fields CARotateInterval,
CAOverlapInterval, CertRotateInterval and CertOverlapInterval. -/
def ValidateSelfSignConfiguration (conf : NMStateSelfSignConfiguration) : List error :=
  if conf = ⟨"", "", "", ""⟩ then [] else
  let selfSignConfiguration := conf
  let errs : List error := []
  let err := validateNotEmpty "caRotateInterval" selfSignConfiguration.CARotateInterval
  let errs := appendOnError errs err
  let err := validateNotEmpty "caOverlapInterval" selfSignConfiguration.CAOverlapInterval
  let errs := appendOnError errs err
  let err := validateNotEmpty "certRotateInterval" selfSignConfiguration.CertRotateInterval
  let errs := appendOnError errs err
  let err := validateNotEmpty "certOverlapInterval" selfSignConfiguration.CertOverlapInterval
  let errs := appendOnError errs err
  -- There are empty values don't continue
  if errs.length > 0 then errs else
  let (caRotateInterval, err) :=
    parseCertificateKnob "caRotateInterval" selfSignConfiguration.CARotateInterval
  let errs := appendOnError errs err
  let (caOverlapInterval, err) :=
    parseCertificateKnob "caOverlapInterval" selfSignConfiguration.CAOverlapInterval
  let errs := appendOnError errs err
  let (certRotateInterval, err) :=
    parseCertificateKnob "certRotateInterval" selfSignConfiguration.CertRotateInterval
  let errs := appendOnError errs err
  let (certOverlapInterval, err) :=
    parseCertificateKnob "certOverlapInterval" selfSignConfiguration.CertOverlapInterval
  let errs := appendOnError errs err
  -- If they cannot be parsed don't continue
  if errs.length > 0 then errs else
  let err := validateGreaterThanZero "caRotateInterval" caRotateInterval
  let errs := appendOnError errs err
  let err := validateGreaterThanZero "caOverlapInterval" caOverlapInterval
  let errs := appendOnError errs err
  let err := validateGreaterThanZero "certRotateInterval" certRotateInterval
  let errs := appendOnError errs err
  let err := validateGreaterThanZero "certOverlapInterval" certOverlapInterval
  let errs := appendOnError errs err
  -- If we have a zero value don't continue
  if errs.length > 0 then errs else
  let err := validateGreaterThan "caRotateInterval" caRotateInterval
    "caOverlapInterval" caOverlapInterval
  let errs := appendOnError errs err
  let err := validateGreaterThan "caRotateInterval" caRotateInterval
    "certRotateInterval" certRotateInterval
  let errs := appendOnError errs err
  let err := validateGreaterThan "certRotateInterval" certRotateInterval
    "certOverlapInterval" certOverlapInterval
  let errs := appendOnError errs err
  errs

def DefaultSelfSignConfiguration : NMStateSelfSignConfiguration :=
  { CARotateInterval := caRotateIntervalDefault.String
    CAOverlapInterval := caOverlapIntervalDefault.String
    CertRotateInterval := certRotateIntervalDefault.String
    CertOverlapInterval := certOverlapIntervalDefault.String }

def ErrorListToMultiLineString (errs : List error) : String :=
  let stringErrs := errs.foldl (fun (stringErrs : List String) (err : error) =>
    match err with
    | some e => stringErrs ++ [e.Error]
    | none => stringErrs) []
  stringsJoin stringErrs "\n"

/-! ## Statement vocabulary -/

/-- The four fields with the names the validator reports them under, in the
order it checks them. -/
def namedFields (conf : NMStateSelfSignConfiguration) : List (String × String) :=
  [("caRotateInterval", conf.CARotateInterval),
   ("caOverlapInterval", conf.CAOverlapInterval),
   ("certRotateInterval", conf.CertRotateInterval),
   ("certOverlapInterval", conf.CertOverlapInterval)]

/-- The zero value `NMStateSelfSignConfiguration{}`. -/
def zeroConfiguration : NMStateSelfSignConfiguration := ⟨"", "", "", ""⟩

/-- The missing-field error for the field called `name`. -/
def missingFieldError (name : String) : error :=
  some (.fundamental ("failed to validate selfSignConfiguration: " ++ name ++ " is missing"))

/-- The parse error for the field called `name`, wrapping the error `cause`
of `time.ParseDuration`. -/
def unparseableDurationError (name : String) (cause : ErrorValue) : error :=
  some (.withMessage cause ("failed to validate selfSignConfiguration: error parsing " ++ name))

/-- The non-positive-duration error for the field called `name`. -/
def nonPositiveDurationError (name : String) : error :=
  some (.fundamental
    ("failed to validate selfSignConfiguration: " ++ name ++ " duration has to be > 0"))

/-- The ordering error saying that `small` (of value `ds`) has to be at most
`large` (of value `dl`). -/
def orderingViolationError (small : String) (ds : Duration) (large : String) (dl : Duration) :
    error :=
  some (.fundamental ("failed to validate selfSignConfiguration: " ++ small ++ "(" ++ ds.String
    ++ ") has to be <= " ++ large ++ "(" ++ dl.String ++ ")"))

/-- One missing-field error per empty field, in field order. -/
def missingFieldErrors (conf : NMStateSelfSignConfiguration) : List error :=
  ((namedFields conf).filter (fun p => decide (p.2 = ""))).map (fun p => missingFieldError p.1)

/-- One parse error per field that `time.ParseDuration` rejects, in field order. -/
def unparseableDurationErrors (conf : NMStateSelfSignConfiguration) : List error :=
  (namedFields conf).filterMap (fun p =>
    match (ParseDuration p.2).2 with
    | some cause => some (unparseableDurationError p.1 cause)
    | none => none)

/-- One error per violated relation among `caOverlapInterval <= caRotateInterval`,
`certRotateInterval <= caRotateInterval`, `certOverlapInterval <= certRotateInterval`,
in that order, for the parsed values `caRotate`, `caOverlap`, `certRotate`, `certOverlap`. -/
def orderingViolationErrors (caRotate caOverlap certRotate certOverlap : Duration) : List error :=
  (if caOverlap ≤ caRotate then []
    else [orderingViolationError "caOverlapInterval" caOverlap "caRotateInterval" caRotate])
  ++ (if certRotate ≤ caRotate then []
    else [orderingViolationError "certRotateInterval" certRotate "caRotateInterval" caRotate])
  ++ (if certOverlap ≤ certRotate then []
    else [orderingViolationError "certOverlapInterval" certOverlap "certRotateInterval" certRotate])

/-- One non-positive-duration error per parsed value that is zero, in field order. -/
def nonPositiveDurationErrors (caRotate caOverlap certRotate certOverlap : Duration) :
    List error :=
  (([("caRotateInterval", caRotate), ("caOverlapInterval", caOverlap),
      ("certRotateInterval", certRotate), ("certOverlapInterval", certOverlap)] :
      List (String × Duration)).filter (fun p => decide (p.2 = 0))).map
    (fun p => nonPositiveDurationError p.1)

/-- The four stages of the validator, as kinds of error. -/
inductive ErrorKind
  | missingField
  | unparseableDuration
  | nonPositiveDuration
  | orderingViolation
  deriving DecidableEq, Repr

/-- The error `e` is of kind `k`: it is the error that the stage `k` builds,
for some field name(s) and value(s). -/
def HasKind (k : ErrorKind) (e : error) : Prop :=
  match k with
  | .missingField => ∃ name, e = missingFieldError name
  | .unparseableDuration => ∃ name cause, e = unparseableDurationError name cause
  | .nonPositiveDuration => ∃ name, e = nonPositiveDurationError name
  | .orderingViolation => ∃ small ds large dl, e = orderingViolationError small ds large dl

/-- The messages with one `"\n"` between consecutive ones, and none before
the first or after the last. -/
def joinedWithNewlines : List String → String
  | [] => ""
  | [m] => m
  | m :: m' :: ms => m ++ "\n" ++ joinedWithNewlines (m' :: ms)

/-- The messages of the non-nil entries of a list of errors, in list order. -/
def messagesOf (errs : List error) : List String :=
  errs.filterMap (fun err => err.map ErrorValue.Error)

/-- The last character of the message of an error made by `errors.Errorf`
(`none` for any other error). -/
def lastCharOfFundamental : error → Option Char
  | some (.fundamental msg) => msg.data.getLast?
  | _ => none

/-- What `lastCharOfFundamental` gives on the errors of each kind. -/
def ErrorKind.lastChar : ErrorKind → Option Char
  | .missingField => some 'g'
  | .unparseableDuration => none
  | .nonPositiveDuration => some '0'
  | .orderingViolation => some ')'

/-- The three relations the ordering stage checks, each as the name and value
of the field that must be the smaller one, then those of the larger one, in
the order of the checks, for the parsed values `caRotate`, `caOverlap`,
`certRotate`, `certOverlap`. -/
def orderingRelations (caRotate caOverlap certRotate certOverlap : Duration) :
    List (String × Duration × String × Duration) :=
  [("caOverlapInterval", caOverlap, "caRotateInterval", caRotate),
   ("certRotateInterval", certRotate, "caRotateInterval", caRotate),
   ("certOverlapInterval", certOverlap, "certRotateInterval", certRotate)]

/-- The pieces of `s` between its newline characters, which is what splitting
`s` on `"\n"` gives. -/
def splitOnNewline (s : String) : List String :=
  (s.data.splitOn '\n').map String.mk

/-! ## The fuel of the loops is enough -/

theorem leadingInt_length (s : List Char) (x v : Nat) (rest : List Char)
    (h : leadingInt s x = some (v, rest)) : rest.length ≤ s.length := by
  induction s generalizing x with
  | nil =>
    simp only [leadingInt, Option.some.injEq, Prod.mk.injEq] at h
    rw [← h.2]
  | cons c s ih =>
    simp only [leadingInt] at h
    split at h
    · simp only [Option.some.injEq, Prod.mk.injEq] at h
      rw [← h.2]
    · split at h
      · exact absurd h (by simp)
      · split at h
        · exact absurd h (by simp)
        · exact Nat.le_succ_of_le (ih _ h)

theorem leadingFraction_length (s : List Char) (x : Nat) (scale : Float64) (overflow : Bool) :
    (leadingFraction s x scale overflow).2.2.length ≤ s.length := by
  induction s generalizing x scale overflow with
  | nil => simp [leadingFraction]
  | cons c s ih =>
    simp only [leadingFraction]
    split
    · exact Nat.le_refl _
    · split
      · exact Nat.le_succ_of_le (ih _ _ _)
      · split
        · exact Nat.le_succ_of_le (ih _ _ _)
        · split
          · exact Nat.le_succ_of_le (ih _ _ _)
          · exact Nat.le_succ_of_le (ih _ _ _)

theorem dropWhile_length_lt (p : Char → Bool) (s : List Char) (h : s.takeWhile p ≠ []) :
    (s.dropWhile p).length < s.length := by
  have hlen := congrArg List.length (List.takeWhile_append_dropWhile p s)
  rw [List.length_append] at hlen
  have hpos : 0 < (s.takeWhile p).length := List.length_pos.mpr h
  omega

/-- An iteration of the loop of `ParseDuration` that does not fail leaves a
strictly shorter rest. -/
theorem parseGroup_length (orig : String) (c : Char) (s0 : List Char) (d : Nat)
    (rest : List Char) (d' : Nat) (h : parseGroup orig c s0 d = .ok (rest, d')) :
    rest.length < (c :: s0).length := by
  unfold parseGroup at h
  split at h
  · exact absurd h (by simp)
  · split at h
    · exact absurd h (by simp)
    · rename_i v s hs
      have h1 := leadingInt_length _ _ _ _ hs
      split at h
      rename_i f scale s2 post heq
      have h2 : s2.length ≤ s.length := by
        split at heq
        · rename_i s1
          have hf := leadingFraction_length s1 0 (.finite 1) false
          rcases hfr : leadingFraction s1 0 (.finite 1) false with ⟨f1, scale1, s3⟩
          rw [hfr] at heq hf
          simp only [Prod.mk.injEq] at heq
          rw [← heq.2.2.1]
          simp only [List.length_cons]
          exact Nat.le_succ_of_le hf
        · simp only [Prod.mk.injEq] at heq
          rw [← heq.2.2.1]
      simp only at h
      split at h
      · exact absurd h (by simp)
      · split at h
        · exact absurd h (by simp)
        · rename_i hu
          have h3 := dropWhile_length_lt _ _ hu
          split at h
          · exact absurd h (by simp)
          · split_ifs at h
            all_goals
              simp only [Except.ok.injEq, Prod.mk.injEq] at h
              rw [← h.1]
              omega

/-- The loop of `ParseDuration` never runs out of fuel: with at least `len(s)`
iterations allowed, allowing more does not change its result. -/
theorem parseGroups_fuel (orig : String) (fuel extra : Nat) (s : List Char) (d : Nat)
    (h : s.length ≤ fuel) :
    parseGroups orig (fuel + extra) s d = parseGroups orig fuel s d := by
  induction fuel generalizing s d with
  | zero =>
    cases s with
    | nil => cases extra <;> rfl
    | cons c s0 => exact absurd h (by simp)
  | succ fuel ih =>
    cases s with
    | nil => rw [Nat.add_right_comm]; rfl
    | cons c s0 =>
      rw [Nat.add_right_comm]
      simp only [parseGroups]
      cases hg : parseGroup orig c s0 d with
      | error e => rfl
      | ok r =>
        obtain ⟨rest, d'⟩ := r
        have hl := parseGroup_length orig c s0 d rest d' hg
        exact ih rest d' (by omega)

/-- The loop of `fmtInt` never runs out of fuel on a value below `10 ^ fuel`. -/
theorem fmtIntLoop_fuel (fuel extra : Nat) (buf : List Char) (v : Nat) (h : v < 10 ^ fuel) :
    fmtIntLoop (fuel + extra) buf v = fmtIntLoop fuel buf v := by
  induction fuel generalizing buf v with
  | zero =>
    have hv : v = 0 := by simpa using h
    subst hv
    cases extra <;> simp [fmtIntLoop]
  | succ fuel ih =>
    rw [Nat.add_right_comm]
    simp only [fmtIntLoop]
    split
    · exact ih _ _ (by rw [Nat.pow_succ] at h; omega)
    · rfl

/-! ## Lemmas on the stages of the validator -/

theorem appendOnError_none (errs : List error) : appendOnError errs none = errs := by
  simp [appendOnError]

theorem appendOnError_some (errs : List error) (e : ErrorValue) :
    appendOnError errs (some e) = errs ++ [some e] := by
  simp [appendOnError]

theorem ParseDuration_empty : (ParseDuration "").2 ≠ none := by decide

/-- Stage 1: as soon as a field is empty (and the configuration is not the
zero value) the result is the list of missing-field errors. -/
theorem validate_of_missing (conf : NMStateSelfSignConfiguration)
    (hz : conf ≠ zeroConfiguration)
    (h : conf.CARotateInterval = "" ∨ conf.CAOverlapInterval = "" ∨
      conf.CertRotateInterval = "" ∨ conf.CertOverlapInterval = "") :
    ValidateSelfSignConfiguration conf = missingFieldErrors conf := by
  have hz' : ¬ conf = ⟨"", "", "", ""⟩ := hz
  by_cases h1 : conf.CARotateInterval = "" <;> by_cases h2 : conf.CAOverlapInterval = "" <;>
    by_cases h3 : conf.CertRotateInterval = "" <;> by_cases h4 : conf.CertOverlapInterval = "" <;>
    simp_all [ValidateSelfSignConfiguration, missingFieldErrors, namedFields, validateNotEmpty,
      appendOnError, Errorf, missingFieldError]

/-- Stage 2: when no field is empty and some field does not parse, the result
is the list of parse errors. -/
theorem validate_of_unparseable (conf : NMStateSelfSignConfiguration)
    (h1 : conf.CARotateInterval ≠ "") (h2 : conf.CAOverlapInterval ≠ "")
    (h3 : conf.CertRotateInterval ≠ "") (h4 : conf.CertOverlapInterval ≠ "")
    (h : (ParseDuration conf.CARotateInterval).2 ≠ none ∨
      (ParseDuration conf.CAOverlapInterval).2 ≠ none ∨
      (ParseDuration conf.CertRotateInterval).2 ≠ none ∨
      (ParseDuration conf.CertOverlapInterval).2 ≠ none) :
    ValidateSelfSignConfiguration conf = unparseableDurationErrors conf := by
  have hz : ¬ conf = ⟨"", "", "", ""⟩ := fun hc => h1 (by rw [hc])
  rcases p1 : ParseDuration conf.CARotateInterval with ⟨d1, e1⟩
  rcases p2 : ParseDuration conf.CAOverlapInterval with ⟨d2, e2⟩
  rcases p3 : ParseDuration conf.CertRotateInterval with ⟨d3, e3⟩
  rcases p4 : ParseDuration conf.CertOverlapInterval with ⟨d4, e4⟩
  rw [p1, p2, p3, p4] at h
  cases e1 <;> cases e2 <;> cases e3 <;> cases e4 <;>
    simp_all [ValidateSelfSignConfiguration, unparseableDurationErrors, namedFields,
      validateNotEmpty, appendOnError, parseCertificateKnob, Wrapf, unparseableDurationError]

/-- Stages 3 and 4: when the four fields parse, the result is the list of
non-positive-duration errors if one of the values is zero, and the list of
ordering errors otherwise. -/
theorem validate_of_parsed (conf : NMStateSelfSignConfiguration) (d1 d2 d3 d4 : Duration)
    (p1 : ParseDuration conf.CARotateInterval = (d1, none))
    (p2 : ParseDuration conf.CAOverlapInterval = (d2, none))
    (p3 : ParseDuration conf.CertRotateInterval = (d3, none))
    (p4 : ParseDuration conf.CertOverlapInterval = (d4, none)) :
    ValidateSelfSignConfiguration conf =
      if d1 = 0 ∨ d2 = 0 ∨ d3 = 0 ∨ d4 = 0 then nonPositiveDurationErrors d1 d2 d3 d4
      else orderingViolationErrors d1 d2 d3 d4 := by
  have h1 : conf.CARotateInterval ≠ "" := fun hc => ParseDuration_empty (by rw [← hc, p1])
  have h2 : conf.CAOverlapInterval ≠ "" := fun hc => ParseDuration_empty (by rw [← hc, p2])
  have h3 : conf.CertRotateInterval ≠ "" := fun hc => ParseDuration_empty (by rw [← hc, p3])
  have h4 : conf.CertOverlapInterval ≠ "" := fun hc => ParseDuration_empty (by rw [← hc, p4])
  have hz : ¬ conf = ⟨"", "", "", ""⟩ := fun hc => h1 (by rw [hc])
  by_cases z1 : d1 = 0 <;> by_cases z2 : d2 = 0 <;> by_cases z3 : d3 = 0 <;>
    by_cases z4 : d4 = 0 <;>
    simp [ValidateSelfSignConfiguration, nonPositiveDurationErrors, orderingViolationErrors,
      validateNotEmpty, appendOnError, parseCertificateKnob, validateGreaterThanZero,
      validateGreaterThan, Errorf, nonPositiveDurationError, orderingViolationError,
      hz, h1, h2, h3, h4, p1, p2, p3, p4, z1, z2, z3, z4]
  simp only [← not_le]
  by_cases o1 : d2 ≤ d1 <;> by_cases o2 : d3 ≤ d1 <;> by_cases o3 : d4 ≤ d3 <;>
    simp [o1, o2, o3]

theorem missingFieldErrors_ne_nil (conf : NMStateSelfSignConfiguration)
    (h : conf.CARotateInterval = "" ∨ conf.CAOverlapInterval = "" ∨
      conf.CertRotateInterval = "" ∨ conf.CertOverlapInterval = "") :
    missingFieldErrors conf ≠ [] := by
  by_cases h1 : conf.CARotateInterval = "" <;> by_cases h2 : conf.CAOverlapInterval = "" <;>
    by_cases h3 : conf.CertRotateInterval = "" <;> by_cases h4 : conf.CertOverlapInterval = "" <;>
    simp_all [missingFieldErrors, namedFields]

theorem unparseableDurationErrors_ne_nil (conf : NMStateSelfSignConfiguration)
    (h : (ParseDuration conf.CARotateInterval).2 ≠ none ∨
      (ParseDuration conf.CAOverlapInterval).2 ≠ none ∨
      (ParseDuration conf.CertRotateInterval).2 ≠ none ∨
      (ParseDuration conf.CertOverlapInterval).2 ≠ none) :
    unparseableDurationErrors conf ≠ [] := by
  rcases p1 : ParseDuration conf.CARotateInterval with ⟨d1, e1⟩
  rcases p2 : ParseDuration conf.CAOverlapInterval with ⟨d2, e2⟩
  rcases p3 : ParseDuration conf.CertRotateInterval with ⟨d3, e3⟩
  rcases p4 : ParseDuration conf.CertOverlapInterval with ⟨d4, e4⟩
  rw [p1, p2, p3, p4] at h
  cases e1 <;> cases e2 <;> cases e3 <;> cases e4 <;>
    simp_all [unparseableDurationErrors, namedFields]

theorem nonPositiveDurationErrors_ne_nil (d1 d2 d3 d4 : Duration)
    (h : d1 = 0 ∨ d2 = 0 ∨ d3 = 0 ∨ d4 = 0) : nonPositiveDurationErrors d1 d2 d3 d4 ≠ [] := by
  by_cases z1 : d1 = 0 <;> by_cases z2 : d2 = 0 <;> by_cases z3 : d3 = 0 <;>
    by_cases z4 : d4 = 0 <;> simp_all [nonPositiveDurationErrors]

theorem orderingViolationErrors_eq_nil (d1 d2 d3 d4 : Duration) :
    orderingViolationErrors d1 d2 d3 d4 = [] ↔ d2 ≤ d1 ∧ d3 ≤ d1 ∧ d4 ≤ d3 := by
  by_cases o1 : d2 ≤ d1 <;> by_cases o2 : d3 ≤ d1 <;> by_cases o3 : d4 ≤ d3 <;>
    simp [orderingViolationErrors, o1, o2, o3]

/-! ## The claims -/

/-- C1: a configuration whose four fields are non-empty, parse as durations
that are strictly positive, and satisfy `caOverlapInterval <= caRotateInterval`,
`certRotateInterval <= caRotateInterval` and `certOverlapInterval <= certRotateInterval`
is accepted: `ValidateSelfSignConfiguration` returns the empty list. The
relations are non-strict, so equal values pass. -/
theorem validate_accepts_positive_ordered (conf : NMStateSelfSignConfiguration)
    (d1 d2 d3 d4 : Duration)
    (_n1 : conf.CARotateInterval ≠ "") (_n2 : conf.CAOverlapInterval ≠ "")
    (_n3 : conf.CertRotateInterval ≠ "") (_n4 : conf.CertOverlapInterval ≠ "")
    (p1 : ParseDuration conf.CARotateInterval = (d1, none))
    (p2 : ParseDuration conf.CAOverlapInterval = (d2, none))
    (p3 : ParseDuration conf.CertRotateInterval = (d3, none))
    (p4 : ParseDuration conf.CertOverlapInterval = (d4, none))
    (z1 : 0 < d1) (z2 : 0 < d2) (z3 : 0 < d3) (z4 : 0 < d4)
    (o1 : d2 ≤ d1) (o2 : d3 ≤ d1) (o3 : d4 ≤ d3) :
    ValidateSelfSignConfiguration conf = [] := by
  rw [validate_of_parsed conf d1 d2 d3 d4 p1 p2 p3 p4]
  have hz : ¬ (d1 = 0 ∨ d2 = 0 ∨ d3 = 0 ∨ d4 = 0) := by
    simp [z1.ne', z2.ne', z3.ne', z4.ne']
  rw [if_neg hz]
  exact (orderingViolationErrors_eq_nil d1 d2 d3 d4).mpr ⟨o1, o2, o3⟩

/-- Witness of C1: all four fields `"1h"` yield no error. -/
theorem validate_accepts_positive_ordered_witness :
    ValidateSelfSignConfiguration ⟨"1h", "1h", "1h", "1h"⟩ = [] :=
  validate_accepts_positive_ordered ⟨"1h", "1h", "1h", "1h"⟩ Hour Hour Hour Hour
    (by decide) (by decide) (by decide) (by decide)
    (by decide) (by decide) (by decide) (by decide)
    (by decide) (by decide) (by decide) (by decide)
    (by decide) (by decide) (by decide)

/-- C2, evaluated at the input that breaks it: the four fields `"-1h"` are
non-empty and parse, to the negative duration of minus one hour, and
`ValidateSelfSignConfiguration` returns the empty list although no parsed
duration is strictly greater than zero (`validateGreaterThanZero` only
rejects `d == 0`). -/
theorem validate_accepts_negative_durations :
    ParseDuration "-1h" = (-Hour, none) ∧ ¬ (0 < -Hour) ∧
      validateGreaterThanZero "caRotateInterval" (-Hour) = none ∧
      ValidateSelfSignConfiguration ⟨"-1h", "-1h", "-1h", "-1h"⟩ = [] := by
  decide

/-- C3: for a configuration that is not the zero value, an empty result of
`ValidateSelfSignConfiguration` means that the four fields are non-empty, that
they all parse as durations, and that the parsed durations satisfy
`caOverlapInterval <= caRotateInterval`, `certRotateInterval <= caRotateInterval`,
`certOverlapInterval <= certRotateInterval`, hence also
`certOverlapInterval <= caRotateInterval`. -/
theorem validate_nil_sound (conf : NMStateSelfSignConfiguration)
    (hz : conf ≠ zeroConfiguration) (h : ValidateSelfSignConfiguration conf = []) :
    (conf.CARotateInterval ≠ "" ∧ conf.CAOverlapInterval ≠ "" ∧
      conf.CertRotateInterval ≠ "" ∧ conf.CertOverlapInterval ≠ "") ∧
    ((ParseDuration conf.CARotateInterval).2 = none ∧
      (ParseDuration conf.CAOverlapInterval).2 = none ∧
      (ParseDuration conf.CertRotateInterval).2 = none ∧
      (ParseDuration conf.CertOverlapInterval).2 = none) ∧
    (ParseDuration conf.CAOverlapInterval).1 ≤ (ParseDuration conf.CARotateInterval).1 ∧
    (ParseDuration conf.CertRotateInterval).1 ≤ (ParseDuration conf.CARotateInterval).1 ∧
    (ParseDuration conf.CertOverlapInterval).1 ≤ (ParseDuration conf.CertRotateInterval).1 ∧
    (ParseDuration conf.CertOverlapInterval).1 ≤ (ParseDuration conf.CARotateInterval).1 := by
  by_cases hm : conf.CARotateInterval = "" ∨ conf.CAOverlapInterval = "" ∨
      conf.CertRotateInterval = "" ∨ conf.CertOverlapInterval = ""
  · rw [validate_of_missing conf hz hm] at h
    exact absurd h (missingFieldErrors_ne_nil conf hm)
  have hn : conf.CARotateInterval ≠ "" ∧ conf.CAOverlapInterval ≠ "" ∧
      conf.CertRotateInterval ≠ "" ∧ conf.CertOverlapInterval ≠ "" := by
    simpa [not_or] using hm
  by_cases hp : (ParseDuration conf.CARotateInterval).2 ≠ none ∨
      (ParseDuration conf.CAOverlapInterval).2 ≠ none ∨
      (ParseDuration conf.CertRotateInterval).2 ≠ none ∨
      (ParseDuration conf.CertOverlapInterval).2 ≠ none
  · rw [validate_of_unparseable conf hn.1 hn.2.1 hn.2.2.1 hn.2.2.2 hp] at h
    exact absurd h (unparseableDurationErrors_ne_nil conf hp)
  have hq : (ParseDuration conf.CARotateInterval).2 = none ∧
      (ParseDuration conf.CAOverlapInterval).2 = none ∧
      (ParseDuration conf.CertRotateInterval).2 = none ∧
      (ParseDuration conf.CertOverlapInterval).2 = none := by
    simpa [not_or] using hp
  rw [validate_of_parsed conf _ _ _ _ (Prod.ext rfl hq.1) (Prod.ext rfl hq.2.1)
    (Prod.ext rfl hq.2.2.1) (Prod.ext rfl hq.2.2.2)] at h
  split at h
  · rename_i hzero
    exact absurd h (nonPositiveDurationErrors_ne_nil _ _ _ _ hzero)
  · have ho := (orderingViolationErrors_eq_nil _ _ _ _).mp h
    exact ⟨hn, hq, ho.1, ho.2.1, ho.2.2, le_trans ho.2.2 ho.2.1⟩

/-- Witness of C3: the configuration `168h`, `24h`, `24h`, `8h`. -/
theorem validate_nil_sound_witness :
    (ParseDuration "24h").1 ≤ (ParseDuration "168h").1 ∧
      (ParseDuration "8h").1 ≤ (ParseDuration "24h").1 :=
  have h := validate_nil_sound ⟨"168h", "24h", "24h", "8h"⟩ (by decide) (by decide)
  ⟨h.2.2.1, h.2.2.2.2.1⟩

/-- C4: the zero-value configuration (all four fields empty) is valid:
`ValidateSelfSignConfiguration` returns the empty list, without any
missing-field error. -/
theorem validate_zero_value :
    ValidateSelfSignConfiguration
      { CARotateInterval := "", CAOverlapInterval := "",
        CertRotateInterval := "", CertOverlapInterval := "" } = [] := by
  decide

/-- C5: for a configuration that is not the zero value and has at least one
empty field, `ValidateSelfSignConfiguration` returns exactly one missing-field
error per empty field, in the order `caRotateInterval`, `caOverlapInterval`,
`certRotateInterval`, `certOverlapInterval`, and nothing else, whatever the
non-empty fields contain. -/
theorem validate_missing_fields (conf : NMStateSelfSignConfiguration)
    (hz : conf ≠ zeroConfiguration) (h : ∃ p ∈ namedFields conf, p.2 = "") :
    ValidateSelfSignConfiguration conf =
      ((namedFields conf).filter (fun p => decide (p.2 = ""))).map (fun p =>
        some (ErrorValue.fundamental
          ("failed to validate selfSignConfiguration: " ++ p.1 ++ " is missing"))) := by
  have hm : conf.CARotateInterval = "" ∨ conf.CAOverlapInterval = "" ∨
      conf.CertRotateInterval = "" ∨ conf.CertOverlapInterval = "" := by
    simpa [namedFields] using h
  rw [validate_of_missing conf hz hm]
  rfl

/-- Witness of C5: omitting only `certRotateInterval` yields exactly the one
error naming it, although `caRotateInterval` holds unparseable text. -/
theorem validate_missing_fields_witness :
    ValidateSelfSignConfiguration ⟨"bad", "1h", "", "0s"⟩ =
      [some (ErrorValue.fundamental
        "failed to validate selfSignConfiguration: certRotateInterval is missing")] :=
  (validate_missing_fields ⟨"bad", "1h", "", "0s"⟩ (by decide)
    ⟨("certRotateInterval", ""), by decide, rfl⟩).trans (by decide)

/-- C6: for a configuration whose four fields are non-empty and at least one
of which `time.ParseDuration` rejects, `ValidateSelfSignConfiguration` returns
exactly one parse error per rejected field (wrapping the error of
`time.ParseDuration`), in the order `caRotateInterval`, `caOverlapInterval`,
`certRotateInterval`, `certOverlapInterval`, and nothing else: no positivity
or ordering error, whatever the fields that do parse hold. -/
theorem validate_unparseable_fields (conf : NMStateSelfSignConfiguration)
    (hn : ∀ p ∈ namedFields conf, p.2 ≠ "")
    (h : ∃ p ∈ namedFields conf, (ParseDuration p.2).2 ≠ none) :
    ValidateSelfSignConfiguration conf =
      (namedFields conf).filterMap (fun p =>
        match (ParseDuration p.2).2 with
        | some cause => some (some (ErrorValue.withMessage cause
            ("failed to validate selfSignConfiguration: error parsing " ++ p.1)))
        | none => none) := by
  have hn' : conf.CARotateInterval ≠ "" ∧ conf.CAOverlapInterval ≠ "" ∧
      conf.CertRotateInterval ≠ "" ∧ conf.CertOverlapInterval ≠ "" := by
    simpa [namedFields] using hn
  have hp : (ParseDuration conf.CARotateInterval).2 ≠ none ∨
      (ParseDuration conf.CAOverlapInterval).2 ≠ none ∨
      (ParseDuration conf.CertRotateInterval).2 ≠ none ∨
      (ParseDuration conf.CertOverlapInterval).2 ≠ none := by
    simpa [namedFields] using h
  rw [validate_of_unparseable conf hn'.1 hn'.2.1 hn'.2.2.1 hn'.2.2.2 hp]
  rfl

/-- Witness of C6: `caRotateInterval = "bad"` yields exactly one error, the
parse error of that field, although `caOverlapInterval` is zero and
`certOverlapInterval` exceeds `certRotateInterval`. -/
theorem validate_unparseable_fields_witness :
    ValidateSelfSignConfiguration ⟨"bad", "0s", "1h", "2h"⟩ =
      [some (ErrorValue.withMessage
        (ErrorValue.errorString "time: invalid duration \"bad\"")
        "failed to validate selfSignConfiguration: error parsing caRotateInterval")] :=
  (validate_unparseable_fields ⟨"bad", "0s", "1h", "2h"⟩ (by decide)
    ⟨("caRotateInterval", "bad"), by decide, by decide⟩).trans (by decide)

/-- C7: for a configuration whose four fields parse to durations that pass the
positivity stage (none is zero), `ValidateSelfSignConfiguration` returns
exactly one ordering error per violated relation among
`caOverlapInterval <= caRotateInterval`, `certRotateInterval <= caRotateInterval`,
`certOverlapInterval <= certRotateInterval`, in that order; each relation is
evaluated whether or not an earlier one failed. -/
theorem validate_ordering_errors (conf : NMStateSelfSignConfiguration)
    (d1 d2 d3 d4 : Duration)
    (p1 : ParseDuration conf.CARotateInterval = (d1, none))
    (p2 : ParseDuration conf.CAOverlapInterval = (d2, none))
    (p3 : ParseDuration conf.CertRotateInterval = (d3, none))
    (p4 : ParseDuration conf.CertOverlapInterval = (d4, none))
    (z1 : d1 ≠ 0) (z2 : d2 ≠ 0) (z3 : d3 ≠ 0) (z4 : d4 ≠ 0) :
    ValidateSelfSignConfiguration conf =
      (if d2 ≤ d1 then []
        else [orderingViolationError "caOverlapInterval" d2 "caRotateInterval" d1])
      ++ (if d3 ≤ d1 then []
        else [orderingViolationError "certRotateInterval" d3 "caRotateInterval" d1])
      ++ (if d4 ≤ d3 then []
        else [orderingViolationError "certOverlapInterval" d4 "certRotateInterval" d3]) := by
  rw [validate_of_parsed conf d1 d2 d3 d4 p1 p2 p3 p4]
  have hz : ¬ (d1 = 0 ∨ d2 = 0 ∨ d3 = 0 ∨ d4 = 0) := by simp [z1, z2, z3, z4]
  rw [if_neg hz]
  rfl

/-- Witness of C7: `24h`/`48h`/`24h`/`24h` yields exactly one ordering error
(`caOverlapInterval` against `caRotateInterval`), and `1h`/`2h`/`3h`/`4h` yields
the three of them. -/
theorem validate_ordering_errors_witness :
    ValidateSelfSignConfiguration ⟨"24h", "48h", "24h", "24h"⟩ =
        [orderingViolationError "caOverlapInterval" (48 * Hour) "caRotateInterval" (24 * Hour)] ∧
      ValidateSelfSignConfiguration ⟨"1h", "2h", "3h", "4h"⟩ =
        [orderingViolationError "caOverlapInterval" (2 * Hour) "caRotateInterval" Hour,
         orderingViolationError "certRotateInterval" (3 * Hour) "caRotateInterval" Hour,
         orderingViolationError "certOverlapInterval" (4 * Hour) "certRotateInterval"
           (3 * Hour)] :=
  ⟨(validate_ordering_errors ⟨"24h", "48h", "24h", "24h"⟩ (24 * Hour) (48 * Hour) (24 * Hour)
      (24 * Hour) (by decide) (by decide) (by decide) (by decide)
      (by decide) (by decide) (by decide) (by decide)).trans (by decide),
    (validate_ordering_errors ⟨"1h", "2h", "3h", "4h"⟩ Hour (2 * Hour) (3 * Hour) (4 * Hour)
      (by decide) (by decide) (by decide) (by decide)
      (by decide) (by decide) (by decide) (by decide)).trans (by decide)⟩

/-! ### Kinds of error -/

theorem getLast_data_append (s t : String) (c : Char) (h : t.data.getLast? = some c) :
    (s ++ t).data.getLast? = some c := by
  simp [String.data_append, List.getLast?_append, h]

theorem lastChar_of_hasKind (k : ErrorKind) (e : error) (h : HasKind k e) :
    lastCharOfFundamental e = k.lastChar := by
  cases k <;> simp only [HasKind] at h
  · obtain ⟨name, rfl⟩ := h
    show ("failed to validate selfSignConfiguration: " ++ name ++ " is missing").data.getLast?
      = some 'g'
    exact getLast_data_append _ " is missing" 'g' (by decide)
  · obtain ⟨name, cause, rfl⟩ := h
    rfl
  · obtain ⟨name, rfl⟩ := h
    show ("failed to validate selfSignConfiguration: " ++ name
      ++ " duration has to be > 0").data.getLast? = some '0'
    exact getLast_data_append _ " duration has to be > 0" '0' (by decide)
  · obtain ⟨small, ds, large, dl, rfl⟩ := h
    show ("failed to validate selfSignConfiguration: " ++ small ++ "(" ++ ds.String
      ++ ") has to be <= " ++ large ++ "(" ++ dl.String ++ ")").data.getLast? = some ')'
    exact getLast_data_append _ ")" ')' (by decide)

/-- An error has at most one kind. -/
theorem hasKind_unique (e : error) (k k' : ErrorKind) (h : HasKind k e) (h' : HasKind k' e) :
    k' = k := by
  have hk := (lastChar_of_hasKind k' e h').symm.trans (lastChar_of_hasKind k e h)
  revert hk
  cases k <;> cases k' <;> decide

theorem hasKind_missingFieldErrors (conf : NMStateSelfSignConfiguration) :
    ∀ e ∈ missingFieldErrors conf, HasKind .missingField e := by
  intro e he
  simp only [missingFieldErrors, List.mem_map] at he
  obtain ⟨p, _, rfl⟩ := he
  exact ⟨p.1, rfl⟩

theorem hasKind_unparseableDurationErrors (conf : NMStateSelfSignConfiguration) :
    ∀ e ∈ unparseableDurationErrors conf, HasKind .unparseableDuration e := by
  intro e he
  simp only [unparseableDurationErrors, List.mem_filterMap] at he
  obtain ⟨p, _, hp⟩ := he
  split at hp
  · rename_i cause _
    exact ⟨p.1, cause, (Option.some.inj hp).symm⟩
  · exact absurd hp (by simp)

theorem hasKind_nonPositiveDurationErrors (d1 d2 d3 d4 : Duration) :
    ∀ e ∈ nonPositiveDurationErrors d1 d2 d3 d4, HasKind .nonPositiveDuration e := by
  intro e he
  simp only [nonPositiveDurationErrors, List.mem_map] at he
  obtain ⟨p, _, rfl⟩ := he
  exact ⟨p.1, rfl⟩

theorem hasKind_orderingViolationErrors (d1 d2 d3 d4 : Duration) :
    ∀ e ∈ orderingViolationErrors d1 d2 d3 d4, HasKind .orderingViolation e := by
  intro e he
  simp only [orderingViolationErrors, List.mem_append] at he
  rcases he with (he | he) | he <;> split at he <;>
    first
      | exact absurd he (List.not_mem_nil _)
      | (rw [List.mem_singleton] at he; exact ⟨_, _, _, _, he⟩)

/-- Every result of the validator is one of the four stage lists (or empty for
the zero value). -/
theorem validate_stage (conf : NMStateSelfSignConfiguration) :
    ∃ k, ∀ e ∈ ValidateSelfSignConfiguration conf, HasKind k e := by
  by_cases hz : conf = zeroConfiguration
  · have hnil : ValidateSelfSignConfiguration zeroConfiguration = [] := by decide
    exact ⟨.missingField, by rw [hz, hnil]; intro e he; exact absurd he (List.not_mem_nil e)⟩
  by_cases hm : conf.CARotateInterval = "" ∨ conf.CAOverlapInterval = "" ∨
      conf.CertRotateInterval = "" ∨ conf.CertOverlapInterval = ""
  · exact ⟨.missingField, by
      rw [validate_of_missing conf hz hm]; exact hasKind_missingFieldErrors conf⟩
  have hn : conf.CARotateInterval ≠ "" ∧ conf.CAOverlapInterval ≠ "" ∧
      conf.CertRotateInterval ≠ "" ∧ conf.CertOverlapInterval ≠ "" := by
    simpa [not_or] using hm
  by_cases hp : (ParseDuration conf.CARotateInterval).2 ≠ none ∨
      (ParseDuration conf.CAOverlapInterval).2 ≠ none ∨
      (ParseDuration conf.CertRotateInterval).2 ≠ none ∨
      (ParseDuration conf.CertOverlapInterval).2 ≠ none
  · exact ⟨.unparseableDuration, by
      rw [validate_of_unparseable conf hn.1 hn.2.1 hn.2.2.1 hn.2.2.2 hp]
      exact hasKind_unparseableDurationErrors conf⟩
  have hq : (ParseDuration conf.CARotateInterval).2 = none ∧
      (ParseDuration conf.CAOverlapInterval).2 = none ∧
      (ParseDuration conf.CertRotateInterval).2 = none ∧
      (ParseDuration conf.CertOverlapInterval).2 = none := by
    simpa [not_or] using hp
  rw [validate_of_parsed conf _ _ _ _ (Prod.ext rfl hq.1) (Prod.ext rfl hq.2.1)
    (Prod.ext rfl hq.2.2.1) (Prod.ext rfl hq.2.2.2)]
  split
  · exact ⟨.nonPositiveDuration, hasKind_nonPositiveDurationErrors _ _ _ _⟩
  · exact ⟨.orderingViolation, hasKind_orderingViolationErrors _ _ _ _⟩

/-- C8: all the errors `ValidateSelfSignConfiguration` returns for a
configuration belong to one stage: there is a kind (missing field, unparseable
duration, non-positive duration, ordering violation) that every error of the
list has, and no error of the list has another kind. -/
theorem validate_single_stage (conf : NMStateSelfSignConfiguration) :
    ∃ k : ErrorKind, ∀ e ∈ ValidateSelfSignConfiguration conf,
      HasKind k e ∧ ∀ k' : ErrorKind, HasKind k' e → k' = k := by
  obtain ⟨k, hk⟩ := validate_stage conf
  exact ⟨k, fun e he => ⟨hk e he, fun k' h' => hasKind_unique e k k' (hk e he) h'⟩⟩

/-- C9: `DefaultSelfSignConfiguration` is the configuration `168h0m0s`,
`24h0m0s`, `24h0m0s`, `8h0m0s`, the `Duration.String` renderings of 168, 24, 24
and 8 hours. -/
theorem default_configuration_values :
    DefaultSelfSignConfiguration =
        { CARotateInterval := "168h0m0s", CAOverlapInterval := "24h0m0s",
          CertRotateInterval := "24h0m0s", CertOverlapInterval := "8h0m0s" } ∧
      Duration.String (168 * Hour) = "168h0m0s" ∧ Duration.String (24 * Hour) = "24h0m0s" ∧
      Duration.String (8 * Hour) = "8h0m0s" := by
  decide

/-! ### The formatter -/

theorem foldl_messages (errs : List error) (acc : List String) :
    errs.foldl (fun (stringErrs : List String) (err : error) =>
      match err with
      | some e => stringErrs ++ [e.Error]
      | none => stringErrs) acc = acc ++ messagesOf errs := by
  induction errs generalizing acc with
  | nil => simp [messagesOf]
  | cons err errs ih =>
    cases err with
    | none => simpa [messagesOf] using ih acc
    | some e => simpa [messagesOf] using ih (acc ++ [e.Error])

theorem foldl_sep_append (sep a b : String) (l : List String) :
    l.foldl (fun acc s => acc ++ sep ++ s) (a ++ b) =
      a ++ l.foldl (fun acc s => acc ++ sep ++ s) b := by
  induction l generalizing b with
  | nil => rfl
  | cons x l ih =>
    simp only [List.foldl_cons]
    rw [String.append_assoc a b sep, String.append_assoc a (b ++ sep) x]
    exact ih (b ++ sep ++ x)

theorem stringsJoin_cons (m : String) (ms : List String) (sep : String) :
    stringsJoin (m :: ms) sep = ms.foldl (fun acc s => acc ++ sep ++ s) m := by
  cases ms <;> rfl

theorem stringsJoin_newline (msgs : List String) :
    stringsJoin msgs "\n" = joinedWithNewlines msgs := by
  induction msgs with
  | nil => rfl
  | cons m ms ih =>
    cases ms with
    | nil => rfl
    | cons m' ms =>
      rw [stringsJoin_cons] at ih ⊢
      simp only [List.foldl_cons, joinedWithNewlines]
      rw [foldl_sep_append, ih]

theorem intercalate_go_eq_foldl (acc sep : String) (l : List String) :
    String.intercalate.go acc sep l = l.foldl (fun b s => b ++ sep ++ s) acc := by
  induction l generalizing acc with
  | nil => rfl
  | cons x l ih => simp only [String.intercalate.go, List.foldl_cons]; exact ih _

theorem stringsJoin_eq_intercalate (msgs : List String) (sep : String) :
    stringsJoin msgs sep = sep.intercalate msgs := by
  cases msgs with
  | nil => rfl
  | cons m ms =>
    rw [stringsJoin_cons]
    simp only [String.intercalate]
    exact (intercalate_go_eq_foldl m sep ms).symm

theorem messagesOf_replicate_none (n : Nat) : messagesOf (List.replicate n none) = [] := by
  simp [messagesOf]

/-- C10: `ErrorListToMultiLineString` returns the messages of the non-nil
entries, in list order, with a single `"\n"` between consecutive messages and
none before the first or after the last (which is also what joining them with
`"\n"` means); the empty list and a list of only nil entries yield the empty
string, and two errors yield the first message, `"\n"`, and the second. -/
theorem errorListToMultiLineString_joins :
    (∀ errs : List error,
      ErrorListToMultiLineString errs = joinedWithNewlines (messagesOf errs) ∧
      ErrorListToMultiLineString errs = "\n".intercalate (messagesOf errs)) ∧
    ErrorListToMultiLineString [] = "" ∧
    (∀ n : Nat, ErrorListToMultiLineString (List.replicate n none) = "") ∧
    (∀ e1 e2 : ErrorValue,
      ErrorListToMultiLineString [some e1, some e2] = e1.Error ++ "\n" ++ e2.Error) ∧
    (∀ e1 e2 : ErrorValue,
      ErrorListToMultiLineString [none, some e1, none, some e2, none] =
        e1.Error ++ "\n" ++ e2.Error) := by
  have key : ∀ errs : List error,
      ErrorListToMultiLineString errs = stringsJoin (messagesOf errs) "\n" := by
    intro errs
    simp only [ErrorListToMultiLineString]
    rw [foldl_messages, List.nil_append]
  refine ⟨fun errs => ⟨?_, ?_⟩, rfl, fun n => ?_, fun e1 e2 => rfl, fun e1 e2 => rfl⟩
  · rw [key, stringsJoin_newline]
  · rw [key, stringsJoin_eq_intercalate]
  · rw [key, messagesOf_replicate_none]
    rfl

/-! ### The stage a result comes from -/

/-- The result of the validator is empty, or the list of one of the four
stages; the ordering stage is reached only when the four fields parse to
non-zero durations. -/
theorem validate_cases (conf : NMStateSelfSignConfiguration) :
    ValidateSelfSignConfiguration conf = [] ∨
    ValidateSelfSignConfiguration conf = missingFieldErrors conf ∨
    ValidateSelfSignConfiguration conf = unparseableDurationErrors conf ∨
    ValidateSelfSignConfiguration conf =
      nonPositiveDurationErrors (ParseDuration conf.CARotateInterval).1
        (ParseDuration conf.CAOverlapInterval).1 (ParseDuration conf.CertRotateInterval).1
        (ParseDuration conf.CertOverlapInterval).1 ∨
    ValidateSelfSignConfiguration conf =
      orderingViolationErrors (ParseDuration conf.CARotateInterval).1
        (ParseDuration conf.CAOverlapInterval).1 (ParseDuration conf.CertRotateInterval).1
        (ParseDuration conf.CertOverlapInterval).1 := by
  by_cases hz : conf = zeroConfiguration
  · have hnil : ValidateSelfSignConfiguration zeroConfiguration = [] := by decide
    exact Or.inl (by rw [hz, hnil])
  by_cases hm : conf.CARotateInterval = "" ∨ conf.CAOverlapInterval = "" ∨
      conf.CertRotateInterval = "" ∨ conf.CertOverlapInterval = ""
  · exact Or.inr (Or.inl (validate_of_missing conf hz hm))
  have hn : conf.CARotateInterval ≠ "" ∧ conf.CAOverlapInterval ≠ "" ∧
      conf.CertRotateInterval ≠ "" ∧ conf.CertOverlapInterval ≠ "" := by
    simpa [not_or] using hm
  by_cases hp : (ParseDuration conf.CARotateInterval).2 ≠ none ∨
      (ParseDuration conf.CAOverlapInterval).2 ≠ none ∨
      (ParseDuration conf.CertRotateInterval).2 ≠ none ∨
      (ParseDuration conf.CertOverlapInterval).2 ≠ none
  · exact Or.inr (Or.inr (Or.inl
      (validate_of_unparseable conf hn.1 hn.2.1 hn.2.2.1 hn.2.2.2 hp)))
  have hq : (ParseDuration conf.CARotateInterval).2 = none ∧
      (ParseDuration conf.CAOverlapInterval).2 = none ∧
      (ParseDuration conf.CertRotateInterval).2 = none ∧
      (ParseDuration conf.CertOverlapInterval).2 = none := by
    simpa [not_or] using hp
  have hv := validate_of_parsed conf _ _ _ _ (Prod.ext rfl hq.1) (Prod.ext rfl hq.2.1)
    (Prod.ext rfl hq.2.2.1) (Prod.ext rfl hq.2.2.2)
  split at hv
  · exact Or.inr (Or.inr (Or.inr (Or.inl hv)))
  · exact Or.inr (Or.inr (Or.inr (Or.inr hv)))

theorem mem_orderingViolationErrors (d1 d2 d3 d4 : Duration) (e : error)
    (he : e ∈ orderingViolationErrors d1 d2 d3 d4) :
    ∃ r ∈ orderingRelations d1 d2 d3 d4, r.2.2.2 < r.2.1 ∧
      e = orderingViolationError r.1 r.2.1 r.2.2.1 r.2.2.2 := by
  simp only [orderingViolationErrors, List.mem_append] at he
  rcases he with (he | he) | he <;> split at he
  · exact absurd he (List.not_mem_nil _)
  · rename_i hlt
    rw [List.mem_singleton] at he
    exact ⟨("caOverlapInterval", d2, "caRotateInterval", d1), by simp [orderingRelations],
      not_le.mp hlt, he⟩
  · exact absurd he (List.not_mem_nil _)
  · rename_i hlt
    rw [List.mem_singleton] at he
    exact ⟨("certRotateInterval", d3, "caRotateInterval", d1), by simp [orderingRelations],
      not_le.mp hlt, he⟩
  · exact absurd he (List.not_mem_nil _)
  · rename_i hlt
    rw [List.mem_singleton] at he
    exact ⟨("certOverlapInterval", d4, "certRotateInterval", d3), by simp [orderingRelations],
      not_le.mp hlt, he⟩

/-- An ordering error of a result comes from the ordering stage. -/
theorem ordering_error_mem (conf : NMStateSelfSignConfiguration) (e : error)
    (he : e ∈ ValidateSelfSignConfiguration conf) (hk : HasKind .orderingViolation e) :
    e ∈ orderingViolationErrors (ParseDuration conf.CARotateInterval).1
      (ParseDuration conf.CAOverlapInterval).1 (ParseDuration conf.CertRotateInterval).1
      (ParseDuration conf.CertOverlapInterval).1 := by
  rcases validate_cases conf with h | h | h | h | h <;> rw [h] at he
  · exact absurd he (List.not_mem_nil _)
  · exact absurd (hasKind_unique e _ _ (hasKind_missingFieldErrors conf e he) hk) (by decide)
  · exact absurd (hasKind_unique e _ _ (hasKind_unparseableDurationErrors conf e he) hk)
      (by decide)
  · exact absurd (hasKind_unique e _ _ (hasKind_nonPositiveDurationErrors _ _ _ _ e he) hk)
      (by decide)
  · exact he

/-! ### Further claims -/

/-- The messages of the ordering stage are those of the violated relations,
in the order of the checks. -/
theorem messages_orderingViolationErrors (d1 d2 d3 d4 : Duration) :
    (orderingViolationErrors d1 d2 d3 d4).map (Option.map ErrorValue.Error) =
      ((orderingRelations d1 d2 d3 d4).filter (fun r => decide (r.2.2.2 < r.2.1))).map
        (fun r => some ("failed to validate selfSignConfiguration: " ++ r.1 ++ "("
          ++ Duration.String r.2.1 ++ ") has to be <= " ++ r.2.2.1 ++ "("
          ++ Duration.String r.2.2.2 ++ ")")) := by
  simp only [orderingViolationErrors, orderingRelations, ← not_le]
  by_cases o1 : d2 ≤ d1 <;> by_cases o2 : d3 ≤ d1 <;> by_cases o3 : d4 ≤ d3 <;>
    simp [o1, o2, o3, List.filter, orderingViolationError, ErrorValue.Error]

/-- C11: the ordering errors `ValidateSelfSignConfiguration` returns name both
fields and show both parsed values, the field that must be the smaller one
first. When the four fields parse to durations that pass the positivity stage,
the messages of the result are exactly, for each violated relation in the order
of the checks,
`failed to validate selfSignConfiguration: <small>(<small value>) has to be <= <large>(<large value>)`,
the values rendered by `Duration.String`; for every configuration, a returned
error that is not a missing-field, parse or non-positive-duration error has
that message for one of the three relations, violated by the parsed values; and
for `24h`/`48h`/`24h`/`24h` the validator returns the single message of
`caOverlapInterval(48h0m0s)` against `caRotateInterval(24h0m0s)`. -/
theorem ordering_error_message :
    (∀ (conf : NMStateSelfSignConfiguration) (d1 d2 d3 d4 : Duration),
      ParseDuration conf.CARotateInterval = (d1, none) →
      ParseDuration conf.CAOverlapInterval = (d2, none) →
      ParseDuration conf.CertRotateInterval = (d3, none) →
      ParseDuration conf.CertOverlapInterval = (d4, none) →
      d1 ≠ 0 → d2 ≠ 0 → d3 ≠ 0 → d4 ≠ 0 →
      (ValidateSelfSignConfiguration conf).map (Option.map ErrorValue.Error) =
        ((orderingRelations d1 d2 d3 d4).filter (fun r => decide (r.2.2.2 < r.2.1))).map
          (fun r => some ("failed to validate selfSignConfiguration: " ++ r.1 ++ "("
            ++ Duration.String r.2.1 ++ ") has to be <= " ++ r.2.2.1 ++ "("
            ++ Duration.String r.2.2.2 ++ ")"))) ∧
    (∀ (conf : NMStateSelfSignConfiguration) (e : ErrorValue),
      some e ∈ ValidateSelfSignConfiguration conf →
      ¬ HasKind .missingField (some e) → ¬ HasKind .unparseableDuration (some e) →
      ¬ HasKind .nonPositiveDuration (some e) →
      ∃ r ∈ orderingRelations (ParseDuration conf.CARotateInterval).1
          (ParseDuration conf.CAOverlapInterval).1 (ParseDuration conf.CertRotateInterval).1
          (ParseDuration conf.CertOverlapInterval).1,
        r.2.2.2 < r.2.1 ∧
        e.Error = "failed to validate selfSignConfiguration: " ++ r.1 ++ "("
          ++ Duration.String r.2.1 ++ ") has to be <= " ++ r.2.2.1 ++ "("
          ++ Duration.String r.2.2.2 ++ ")") ∧
    (ValidateSelfSignConfiguration ⟨"24h", "48h", "24h", "24h"⟩).map
        (Option.map ErrorValue.Error) =
      [some "failed to validate selfSignConfiguration: caOverlapInterval(48h0m0s) has to be <= caRotateInterval(24h0m0s)"] := by
  refine ⟨?_, ?_, by decide⟩
  · intro conf d1 d2 d3 d4 p1 p2 p3 p4 z1 z2 z3 z4
    rw [validate_of_parsed conf d1 d2 d3 d4 p1 p2 p3 p4]
    have hz : ¬ (d1 = 0 ∨ d2 = 0 ∨ d3 = 0 ∨ d4 = 0) := by simp [z1, z2, z3, z4]
    rw [if_neg hz]
    exact messages_orderingViolationErrors d1 d2 d3 d4
  · intro conf e he hm hp hn
    have hmem : some e ∈ orderingViolationErrors (ParseDuration conf.CARotateInterval).1
        (ParseDuration conf.CAOverlapInterval).1 (ParseDuration conf.CertRotateInterval).1
        (ParseDuration conf.CertOverlapInterval).1 := by
      rcases validate_cases conf with h | h | h | h | h <;> rw [h] at he
      · exact absurd he (List.not_mem_nil _)
      · exact absurd (hasKind_missingFieldErrors conf _ he) hm
      · exact absurd (hasKind_unparseableDurationErrors conf _ he) hp
      · exact absurd (hasKind_nonPositiveDurationErrors _ _ _ _ _ he) hn
      · exact he
    obtain ⟨r, hr, hlt, heq⟩ := mem_orderingViolationErrors _ _ _ _ _ hmem
    refine ⟨r, hr, hlt, ?_⟩
    have hinj : e = ErrorValue.fundamental ("failed to validate selfSignConfiguration: " ++ r.1
        ++ "(" ++ Duration.String r.2.1 ++ ") has to be <= " ++ r.2.2.1 ++ "("
        ++ Duration.String r.2.2.2 ++ ")") := Option.some.inj heq
    rw [hinj]
    rfl

/-- Witness of C11: the validator returns the three ordering messages of
`1h`/`2h`/`3h`/`4h`, each with the field that must be the smaller one first. -/
theorem ordering_error_message_witness :
    (ValidateSelfSignConfiguration ⟨"1h", "2h", "3h", "4h"⟩).map (Option.map ErrorValue.Error) =
      [some "failed to validate selfSignConfiguration: caOverlapInterval(2h0m0s) has to be <= caRotateInterval(1h0m0s)",
        some "failed to validate selfSignConfiguration: certRotateInterval(3h0m0s) has to be <= caRotateInterval(1h0m0s)",
        some "failed to validate selfSignConfiguration: certOverlapInterval(4h0m0s) has to be <= certRotateInterval(3h0m0s)"] :=
  (ordering_error_message.1 ⟨"1h", "2h", "3h", "4h"⟩ Hour (2 * Hour) (3 * Hour) (4 * Hour)
    (by decide) (by decide) (by decide) (by decide)
    (by decide) (by decide) (by decide) (by decide)).trans (by decide)

/-- C12: for a configuration whose four fields parse as durations, at least
one of them to exactly zero, `ValidateSelfSignConfiguration` returns exactly
one `duration has to be > 0` error per field of zero duration, in the order
`caRotateInterval`, `caOverlapInterval`, `certRotateInterval`,
`certOverlapInterval`, and nothing else: no ordering error, whether or not the
ordering relations hold. -/
theorem validate_zero_durations (conf : NMStateSelfSignConfiguration)
    (d1 d2 d3 d4 : Duration)
    (p1 : ParseDuration conf.CARotateInterval = (d1, none))
    (p2 : ParseDuration conf.CAOverlapInterval = (d2, none))
    (p3 : ParseDuration conf.CertRotateInterval = (d3, none))
    (p4 : ParseDuration conf.CertOverlapInterval = (d4, none))
    (hz : d1 = 0 ∨ d2 = 0 ∨ d3 = 0 ∨ d4 = 0) :
    ValidateSelfSignConfiguration conf =
      (([("caRotateInterval", d1), ("caOverlapInterval", d2),
          ("certRotateInterval", d3), ("certOverlapInterval", d4)] :
          List (String × Duration)).filter (fun p => decide (p.2 = 0))).map (fun p =>
        some (ErrorValue.fundamental
          ("failed to validate selfSignConfiguration: " ++ p.1 ++ " duration has to be > 0"))) := by
  rw [validate_of_parsed conf d1 d2 d3 d4 p1 p2 p3 p4, if_pos hz]
  rfl

/-- Witness of C12: `0s`/`1h`/`0`/`2h` yields the two zero-duration errors and
no ordering error, although `1h` and `2h` exceed the zero durations they are
compared with. -/
theorem validate_zero_durations_witness :
    ValidateSelfSignConfiguration ⟨"0s", "1h", "0", "2h"⟩ =
      [some (ErrorValue.fundamental
          "failed to validate selfSignConfiguration: caRotateInterval duration has to be > 0"),
        some (ErrorValue.fundamental
          "failed to validate selfSignConfiguration: certRotateInterval duration has to be > 0")] :=
  (validate_zero_durations ⟨"0s", "1h", "0", "2h"⟩ 0 Hour 0 (2 * Hour)
    (by decide) (by decide) (by decide) (by decide) (Or.inl rfl)).trans (by decide)

/-- C13: the defaults are valid: `ValidateSelfSignConfiguration` returns the
empty list on `DefaultSelfSignConfiguration`; each default string parses back
to its constant, which is not zero, and `24h <= 168h`, `24h <= 168h`,
`8h <= 24h`. -/
theorem validate_default_configuration :
    ValidateSelfSignConfiguration DefaultSelfSignConfiguration = [] ∧
    ParseDuration DefaultSelfSignConfiguration.CARotateInterval
      = (caRotateIntervalDefault, none) ∧
    ParseDuration DefaultSelfSignConfiguration.CAOverlapInterval
      = (caOverlapIntervalDefault, none) ∧
    ParseDuration DefaultSelfSignConfiguration.CertRotateInterval
      = (certRotateIntervalDefault, none) ∧
    ParseDuration DefaultSelfSignConfiguration.CertOverlapInterval
      = (certOverlapIntervalDefault, none) ∧
    (0 < caRotateIntervalDefault ∧ 0 < caOverlapIntervalDefault ∧
      0 < certRotateIntervalDefault ∧ 0 < certOverlapIntervalDefault) ∧
    caOverlapIntervalDefault ≤ caRotateIntervalDefault ∧
    certRotateIntervalDefault ≤ caRotateIntervalDefault ∧
    certOverlapIntervalDefault ≤ certRotateIntervalDefault := by
  decide

theorem hasKind_ne_none (k : ErrorKind) (e : error) (h : HasKind k e) : e ≠ none := by
  cases k <;> simp only [HasKind] at h
  · obtain ⟨name, rfl⟩ := h
    exact Option.some_ne_none _
  · obtain ⟨name, cause, rfl⟩ := h
    exact Option.some_ne_none _
  · obtain ⟨name, rfl⟩ := h
    exact Option.some_ne_none _
  · obtain ⟨small, ds, large, dl, rfl⟩ := h
    exact Option.some_ne_none _

theorem length_missingFieldErrors (conf : NMStateSelfSignConfiguration) :
    (missingFieldErrors conf).length ≤ 4 := by
  simp only [missingFieldErrors, List.length_map]
  exact List.length_filter_le _ _

theorem length_unparseableDurationErrors (conf : NMStateSelfSignConfiguration) :
    (unparseableDurationErrors conf).length ≤ 4 := by
  simp only [unparseableDurationErrors]
  exact List.length_filterMap_le _ _

theorem length_nonPositiveDurationErrors (d1 d2 d3 d4 : Duration) :
    (nonPositiveDurationErrors d1 d2 d3 d4).length ≤ 4 := by
  simp only [nonPositiveDurationErrors, List.length_map]
  exact List.length_filter_le _ _

theorem length_orderingViolationErrors (d1 d2 d3 d4 : Duration) :
    (orderingViolationErrors d1 d2 d3 d4).length ≤ 3 := by
  simp only [orderingViolationErrors, List.length_append]
  split <;> split <;> split <;> simp

/-- A list whose errors are all of a kind other than the ordering one and all
of the ordering kind is empty. -/
theorem eq_nil_of_two_kinds (l : List error) (k : ErrorKind) (hk : k ≠ .orderingViolation)
    (h : ∀ e ∈ l, HasKind k e) (ho : ∀ e ∈ l, HasKind .orderingViolation e) : l = [] := by
  cases l with
  | nil => rfl
  | cons e l =>
    exact absurd (hasKind_unique e _ _ (ho e (List.mem_cons_self e l))
      (h e (List.mem_cons_self e l))) hk

/-- C14: the list `ValidateSelfSignConfiguration` returns has at most four
errors and no nil entry, and at most three errors when it consists of ordering
errors. -/
theorem validate_length_bounds (conf : NMStateSelfSignConfiguration) :
    (ValidateSelfSignConfiguration conf).length ≤ 4 ∧
    none ∉ ValidateSelfSignConfiguration conf ∧
    ((∀ e ∈ ValidateSelfSignConfiguration conf, HasKind .orderingViolation e) →
      (ValidateSelfSignConfiguration conf).length ≤ 3) := by
  refine ⟨?_, ?_, ?_⟩
  · rcases validate_cases conf with h | h | h | h | h <;> rw [h]
    · exact Nat.zero_le 4
    · exact length_missingFieldErrors conf
    · exact length_unparseableDurationErrors conf
    · exact length_nonPositiveDurationErrors _ _ _ _
    · exact Nat.le_succ_of_le (length_orderingViolationErrors _ _ _ _)
  · obtain ⟨k, hk⟩ := validate_stage conf
    intro hmem
    exact hasKind_ne_none k none (hk none hmem) rfl
  · intro ho
    rcases validate_cases conf with h | h | h | h | h <;> rw [h] at ho ⊢
    · exact Nat.zero_le 3
    · rw [eq_nil_of_two_kinds _ .missingField (by decide) (hasKind_missingFieldErrors conf) ho]
      exact Nat.zero_le 3
    · rw [eq_nil_of_two_kinds _ .unparseableDuration (by decide)
        (hasKind_unparseableDurationErrors conf) ho]
      exact Nat.zero_le 3
    · rw [eq_nil_of_two_kinds _ .nonPositiveDuration (by decide)
        (hasKind_nonPositiveDurationErrors _ _ _ _) ho]
      exact Nat.zero_le 3
    · exact length_orderingViolationErrors _ _ _ _

/-- Witness of C14: the three ordering errors of `1h`/`2h`/`3h`/`4h`. -/
theorem validate_length_bounds_witness :
    (ValidateSelfSignConfiguration ⟨"1h", "2h", "3h", "4h"⟩).length ≤ 3 :=
  (validate_length_bounds ⟨"1h", "2h", "3h", "4h"⟩).2.2 (fun e he =>
    hasKind_orderingViolationErrors Hour (2 * Hour) (3 * Hour) (4 * Hour) e (by
      have h : ValidateSelfSignConfiguration ⟨"1h", "2h", "3h", "4h"⟩ =
          orderingViolationErrors Hour (2 * Hour) (3 * Hour) (4 * Hour) := by decide
      rw [← h]
      exact he))

/-! ### Splitting the formatted string -/

theorem errorList_eq_stringsJoin (errs : List error) :
    ErrorListToMultiLineString errs = stringsJoin (messagesOf errs) "\n" := by
  simp only [ErrorListToMultiLineString]
  rw [foldl_messages, List.nil_append]

theorem messagesOf_map_some (vals : List ErrorValue) :
    messagesOf (vals.map some) = vals.map ErrorValue.Error := by
  induction vals with
  | nil => rfl
  | cons v vals ih =>
    simp only [messagesOf, List.map_cons, List.filterMap_cons, Option.map_some'] at ih ⊢
    rw [ih]

theorem data_joinedWithNewlines (msgs : List String) :
    (joinedWithNewlines msgs).data = ['\n'].intercalate (msgs.map String.data) := by
  induction msgs with
  | nil => rfl
  | cons m ms ih =>
    cases ms with
    | nil => simp [joinedWithNewlines, List.intercalate]
    | cons m' ms =>
      simp only [joinedWithNewlines, String.data_append, ih]
      simp [List.intercalate]

/-- C15: for a non-empty list of non-nil errors whose messages contain no
newline character, splitting the string `ErrorListToMultiLineString` returns on
`"\n"` gives back exactly the messages of the errors, in order: no error is
lost and no two errors are merged. -/
theorem split_errorListToMultiLineString (vals : List ErrorValue) (hne : vals ≠ [])
    (hnl : ∀ e ∈ vals, '\n' ∉ e.Error.data) :
    splitOnNewline (ErrorListToMultiLineString (vals.map some)) =
      vals.map ErrorValue.Error := by
  simp only [splitOnNewline]
  rw [errorList_eq_stringsJoin, messagesOf_map_some, stringsJoin_newline,
    data_joinedWithNewlines, List.splitOn_intercalate]
  · simp [List.map_map, Function.comp_def]
  · intro l hl
    simp only [List.mem_map] at hl
    obtain ⟨m, ⟨e, he, rfl⟩, rfl⟩ := hl
    exact hnl e he
  · simpa using hne

/-- Witness of C15: the two errors of an invalid configuration. -/
theorem split_errorListToMultiLineString_witness :
    splitOnNewline (ErrorListToMultiLineString
        [some (ErrorValue.fundamental "caRotateInterval is missing"),
          some (ErrorValue.withMessage (ErrorValue.errorString "bad") "error parsing")]) =
      ["caRotateInterval is missing", "error parsing: bad"] :=
  split_errorListToMultiLineString
    [ErrorValue.fundamental "caRotateInterval is missing",
      ErrorValue.withMessage (ErrorValue.errorString "bad") "error parsing"]
    (by decide) (by decide)

end SelfSign
